import Mathlib

set_option linter.unusedVariables false

/- Shallow embedding of the real-time connection/broadcast subsystem of
   NexusPM: the `ConnectionManager` registry and message handler in
   `src/backend/app/websockets/manager.py`, and the endpoint-level
   dispatcher `process_websocket_message` in
   `src/backend/app/api/v1/endpoints/websockets.py`.

   Python dicts are modelled as insertion-ordered association lists:
   assigning to an existing key keeps its position, a new key is
   appended at the end, exactly as CPython dicts behave.  Python sets
   are modelled as duplicate-free lists: `set.add` appends if absent,
   `set.discard` erases the element.  Transports (WebSocket objects)
   are modelled as numeric handles, and a write oracle `ok : Nat → Bool`
   says whether `send_text` on a given transport succeeds.  Each
   send/broadcast operation returns, besides the new registry state, the
   list of successful writes `(transport, message)` it performed;
   `broadcast_to_room` additionally returns whether the
   `len(self.room_connections[room_id])` expression in its final
   logging call raises `KeyError` (the room key no longer present). -/

/-- JSON values (the fragment the subsystem constructs and inspects). -/
inductive Json where
  | null : Json
  | bool : Bool → Json
  | num : Int → Json
  | str : String → Json
  | arr : List Json → Json
  | obj : List (String × Json) → Json

/-- `d[k]` as an `Option`: first entry whose key is `k`. -/
def dictGet {β : Type} (k : String) : List (String × β) → Option β
  | [] => none
  | (k', v) :: rest => if k' = k then some v else dictGet k rest

/-- `d.get(k, default)`. -/
def dictGetD {β : Type} (k : String) (l : List (String × β)) (d : β) : β :=
  (dictGet k l).getD d

/-- `d[k] = v`: replace in place if the key exists, append otherwise. -/
def dictInsert {β : Type} (k : String) (v : β) : List (String × β) → List (String × β)
  | [] => [(k, v)]
  | (k', v') :: rest => if k' = k then (k, v) :: rest else (k', v') :: dictInsert k v rest

/-- `del d[k]`: drop the entry holding key `k`. -/
def dictRemove {β : Type} (k : String) : List (String × β) → List (String × β)
  | [] => []
  | (k', v') :: rest => if k' = k then rest else (k', v') :: dictRemove k rest

/-- `set.add`: append the element if not already present. -/
def setAdd (x : String) (l : List String) : List String :=
  if x ∈ l then l else l ++ [x]

/-- The in-memory state of `ConnectionManager`: `active_connections`,
`user_rooms` and `room_connections` (the `message_queue` field is never
read or written by any operation and is omitted). -/
structure Manager where
  active : List (String × Nat)
  userRooms : List (String × List String)
  roomConns : List (String × List String)
deriving DecidableEq

/-- The state built by `ConnectionManager.__init__`. -/
def initManager : Manager := ⟨[], [], []⟩

/-- `ConnectionManager.connect(websocket, user_id=None)`.  A truthy
`user_id` registers (or re-registers) the identity and resets its room
set to empty; otherwise the transport is stored under the synthetic key
`"anon_" + str(len(self.active_connections))`. -/
def connectM (userId : Option String) (ws : Nat) (s : Manager) : Manager :=
  match userId with
  | some u =>
    if u = "" then
      { s with active := dictInsert ("anon_" ++ toString s.active.length) ws s.active }
    else
      { s with active := dictInsert u ws s.active,
               userRooms := dictInsert u [] s.userRooms }
  | none =>
    { s with active := dictInsert ("anon_" ++ toString s.active.length) ws s.active }

/-- The anonymous-removal loop in `ConnectionManager.disconnect`: delete
the first registered entry whose transport equals the given websocket. -/
def removeFirstVal (ws : Nat) : List (String × Nat) → List (String × Nat)
  | [] => []
  | (k, v) :: rest => if v = ws then rest else (k, v) :: removeFirstVal ws rest

/-- The body of the per-room loop in `ConnectionManager.disconnect`:
discard the user from the room's member set if the room exists, and
delete the room entry if the member set became empty. -/
def purgeUserFromRoom (u : String) (rc : List (String × List String)) (r : String) :
    List (String × List String) :=
  match dictGet r rc with
  | none => rc
  | some l =>
    if l.erase u = [] then dictRemove r rc else dictInsert r (l.erase u) rc

/-- `ConnectionManager.disconnect(websocket, user_id=None)`.  With a
truthy, registered `user_id` it removes the identity from every room
recorded in `user_rooms`, deleting rooms that become empty, and drops
both the `user_rooms` and `active_connections` entries.  Otherwise it
falls through to the anonymous path, removing the first connection
whose transport equals `websocket`. -/
def disconnectM (ws : Nat) (userId : Option String) (s : Manager) : Manager :=
  match userId with
  | some u =>
    if u ≠ "" ∧ (dictGet u s.active).isSome then
      match dictGet u s.userRooms with
      | some rooms =>
        { active := dictRemove u s.active,
          userRooms := dictRemove u s.userRooms,
          roomConns := rooms.foldl (purgeUserFromRoom u) s.roomConns }
      | none => { s with active := dictRemove u s.active }
    else
      { s with active := removeFirstVal ws s.active }
  | none => { s with active := removeFirstVal ws s.active }

/-- `ConnectionManager.join_room(user_id, room_id)`. -/
def joinRoom (u room : String) (s : Manager) : Manager :=
  let ur0 := if (dictGet u s.userRooms).isSome then s.userRooms
             else dictInsert u [] s.userRooms
  let ur1 := dictInsert u (setAdd room (dictGetD u ur0 [])) ur0
  let rc0 := if (dictGet room s.roomConns).isSome then s.roomConns
             else dictInsert room [] s.roomConns
  let rc1 := dictInsert room (setAdd u (dictGetD room rc0 [])) rc0
  { s with userRooms := ur1, roomConns := rc1 }

/-- `ConnectionManager.leave_room(user_id, room_id)`. -/
def leaveRoom (u room : String) (s : Manager) : Manager :=
  let ur1 := match dictGet u s.userRooms with
    | some l => dictInsert u (l.erase room) s.userRooms
    | none => s.userRooms
  let rc1 := match dictGet room s.roomConns with
    | some l => if l.erase u = [] then dictRemove room s.roomConns
                else dictInsert room (l.erase u) s.roomConns
    | none => s.roomConns
  { s with userRooms := ur1, roomConns := rc1 }

/-- `ConnectionManager.send_personal_message(message, user_id)`: write to
the registered transport; on write failure call
`disconnect(self.active_connections[user_id], user_id)`. -/
def sendPersonalMessage {α : Type} (msg : α) (u : String) (ok : Nat → Bool) (s : Manager) :
    Manager × List (Nat × α) :=
  match dictGet u s.active with
  | none => (s, [])
  | some t => if ok t then (s, [(t, msg)]) else (disconnectM t (some u) s, [])

/-- `ConnectionManager.broadcast_to_room(message, room_id, exclude_user=None)`.
Returns the new state, the successful writes, and whether the final
`len(self.room_connections[room_id])` in the debug-log call raises
`KeyError` because the room entry was deleted during cleanup. -/
def broadcastToRoom {α : Type} (msg : α) (room : String) (exclude : Option String)
    (ok : Nat → Bool) (s : Manager) : Manager × List (Nat × α) × Bool :=
  match dictGet room s.roomConns with
  | none => (s, [], false)
  | some members =>
    let writes := members.filterMap (fun u =>
      if exclude = some u then none
      else match dictGet u s.active with
        | some t => if ok t then some (t, msg) else none
        | none => none)
    let failed := members.filter (fun u =>
      decide (exclude ≠ some u) &&
        (match dictGet u s.active with
         | some t => !ok t
         | none => false))
    let s2 := failed.foldl (fun st u =>
      match dictGet u st.active with
      | some t => disconnectM t (some u) st
      | none => st) s
    (s2, writes, (dictGet room s2.roomConns).isNone)

/-- `ConnectionManager.broadcast(message)`: write to every registered
connection, then disconnect the ones whose write failed. -/
def broadcastAll {α : Type} (msg : α) (ok : Nat → Bool) (s : Manager) :
    Manager × List (Nat × α) :=
  let writes := s.active.filterMap (fun p => if ok p.2 then some (p.2, msg) else none)
  let failed := (s.active.filter (fun p => !ok p.2)).map Prod.fst
  let s2 := failed.foldl (fun st u =>
      match dictGet u st.active with
      | some t => disconnectM t (some u) st
      | none => st) s
  (s2, writes)

/-- `ConnectionManager.get_connection_count()`. -/
def getConnectionCount (s : Manager) : Nat := s.active.length

/-- `ConnectionManager.get_room_users(room_id)`. -/
def getRoomUsers (room : String) (s : Manager) : List String :=
  dictGetD room s.roomConns []

/-- `ConnectionManager.get_user_rooms(user_id)`. -/
def getUserRooms (u : String) (s : Manager) : List String :=
  dictGetD u s.userRooms []

/-- The envelope constructed by `ConnectionManager.send_notification`. -/
def notificationMessage (payload : List (String × Json)) (ts : String) : Json :=
  Json.obj [("type", Json.str "notification"), ("data", Json.obj payload),
    ("timestamp", Json.str ts)]

/-- The envelope constructed by `ConnectionManager.send_project_update`. -/
def projectUpdateMessage (payload : List (String × Json)) (ts : String) : Json :=
  Json.obj [("type", Json.str "project_update"), ("data", Json.obj payload),
    ("timestamp", Json.str ts)]

/-- The envelope constructed by `ConnectionManager.send_comment_update`. -/
def commentUpdateMessage (payload : List (String × Json)) (ts : String) : Json :=
  Json.obj [("type", Json.str "comment_update"), ("data", Json.obj payload),
    ("timestamp", Json.str ts)]

/-- The envelope constructed by `ConnectionManager.send_user_activity`.
In the source the timestamp is placed inside `data`; there is no
top-level `"timestamp"` entry. -/
def userActivityMessage (uid act ts : String) : Json :=
  Json.obj [("type", Json.str "user_activity"),
    ("data", Json.obj [("user_id", Json.str uid), ("activity", Json.str act),
      ("timestamp", Json.str ts)])]

/-- `ConnectionManager.send_notification(user_id, notification)`. -/
def sendNotificationW (u : String) (payload : List (String × Json)) (ts : String)
    (ok : Nat → Bool) (s : Manager) : Manager × List (Nat × Json) :=
  sendPersonalMessage (notificationMessage payload ts) u ok s

/-- `ConnectionManager.send_project_update(room_id, update, exclude_user=None)`. -/
def sendProjectUpdateW (room : String) (payload : List (String × Json)) (ts : String)
    (exclude : Option String) (ok : Nat → Bool) (s : Manager) :
    Manager × List (Nat × Json) × Bool :=
  broadcastToRoom (projectUpdateMessage payload ts) room exclude ok s

/-- `ConnectionManager.send_comment_update(room_id, comment, exclude_user=None)`. -/
def sendCommentUpdateW (room : String) (payload : List (String × Json)) (ts : String)
    (exclude : Option String) (ok : Nat → Bool) (s : Manager) :
    Manager × List (Nat × Json) × Bool :=
  broadcastToRoom (commentUpdateMessage payload ts) room exclude ok s

/-- `ConnectionManager.send_user_activity(room_id, user_id, activity)`:
broadcast to the room excluding the acting user. -/
def sendUserActivityW (room uid act ts : String) (ok : Nat → Bool) (s : Manager) :
    Manager × List (Nat × Json) × Bool :=
  broadcastToRoom (userActivityMessage uid act ts) room (some uid) ok s

/-- The top-level field names of a JSON object (empty for non-objects). -/
def topFields : Json → List String
  | Json.obj l => l.map Prod.fst
  | _ => []

/-- `data.get(k)` on a parsed JSON message. -/
def jGet (k : String) : Json → Option Json
  | Json.obj l => dictGet k l
  | _ => none

/-- Python truthiness of a JSON value. -/
def jTruthy : Json → Bool
  | Json.null => false
  | Json.bool b => b
  | Json.num n => n != 0
  | Json.str s => s != ""
  | Json.arr l => !l.isEmpty
  | Json.obj l => !l.isEmpty

/-- A JSON value used directly as a Python dict key (room ids arriving
in messages).  String keys map to themselves so that handler-joined
rooms and directly-joined rooms coincide, as in Python; other scalars
are encoded injectively into the model's `String` key space. -/
def jKeyOf : Json → String
  | Json.null => "none:"
  | Json.bool b => "bool:" ++ toString b
  | Json.num n => "int:" ++ toString n
  | Json.str s => s
  | Json.arr _ => "list:"
  | Json.obj _ => "dict:"

/-- `data.get("type")` when it is a string: the only case in which the
Python comparisons `message_type == "join_room"` (etc.) can be true. -/
def mtype (msg : Json) : Option String :=
  match jGet "type" msg with
  | some (Json.str s) => some s
  | _ => none

/-- `handle_websocket_message(websocket, message, user_id=None)` from
`manager.py`.  Returns the registry state and the writes performed via
`send_personal_message`.  An unrecognized type only logs a warning;
exceptions are swallowed by the surrounding `try`. -/
def handleWebsocketMessage (userId : Option String) (msg : Json) (ts : String)
    (ok : Nat → Bool) (s : Manager) : Manager × List (Nat × Json) :=
  let mt := mtype msg
  if mt = some "join_room" then
    match jGet "room_id" msg, userId with
    | some rid, some u =>
      if jTruthy rid && (u != "") then
        let s1 := joinRoom u (jKeyOf rid) s
        sendPersonalMessage (Json.obj [("type", Json.str "room_joined"), ("room_id", rid)])
          u ok s1
      else (s, [])
    | _, _ => (s, [])
  else if mt = some "leave_room" then
    match jGet "room_id" msg, userId with
    | some rid, some u =>
      if jTruthy rid && (u != "") then
        let s1 := leaveRoom u (jKeyOf rid) s
        sendPersonalMessage (Json.obj [("type", Json.str "room_left"), ("room_id", rid)])
          u ok s1
      else (s, [])
    | _, _ => (s, [])
  else if mt = some "ping" then
    match userId with
    | some u =>
      sendPersonalMessage (Json.obj [("type", Json.str "pong"), ("timestamp", Json.str ts)])
        u ok s
    | none => (s, [])
  else (s, [])

/-- A call issued by `process_websocket_message` against the manager of
`app.core.websocket` (whose implementation is outside `src/`; only the
calls themselves are observable here). -/
inductive MgrCall where
  | joinProject : String → String → MgrCall
  | leaveProject : String → String → MgrCall
  | getUserProjects : String → MgrCall
deriving DecidableEq

/-- Python `str()` of a JSON value, as interpolated into the handler's
f-strings.  The container cases abbreviate Python's repr; no claim
depends on their exact text. -/
def pyStrOf : Json → String
  | Json.null => "None"
  | Json.bool true => "True"
  | Json.bool false => "False"
  | Json.num n => toString n
  | Json.str s => s
  | Json.arr _ => "<list>"
  | Json.obj _ => "<dict>"

/-- Python `str()` of `data.get(k)`, which may be absent (`None`). -/
def pyStrOfOpt : Option Json → String
  | some j => pyStrOf j
  | none => "None"

/-- `process_websocket_message(websocket, user, message)` from
`endpoints/websockets.py`.  The database membership check is abstracted
by `isMember`; the function returns the JSON payloads written to the
sender's own transport and the calls made against the manager. -/
def processWebsocketMessage (isMember : Bool) (userId : String)
    (userProjects : List String) (msg : Json) : List Json × List MgrCall :=
  let mt := mtype msg
  if mt = some "join_project" then
    match jGet "project_id" msg with
    | some pid =>
      if jTruthy pid then
        if isMember then
          ([Json.obj [("type", Json.str "project_joined"), ("project_id", pid),
              ("message", Json.str ("Entrou no projeto " ++ pyStrOf pid))]],
           [MgrCall.joinProject userId (jKeyOf pid)])
        else
          ([Json.obj [("type", Json.str "error"),
              ("message", Json.str "Usuário não é membro do projeto")]], [])
      else ([], [])
    | none => ([], [])
  else if mt = some "leave_project" then
    match jGet "project_id" msg with
    | some pid =>
      if jTruthy pid then
        ([Json.obj [("type", Json.str "project_left"), ("project_id", pid),
            ("message", Json.str ("Saiu do projeto " ++ pyStrOf pid))]],
         [MgrCall.leaveProject userId (jKeyOf pid)])
      else ([], [])
    | none => ([], [])
  else if mt = some "ping" then
    ([Json.obj [("type", Json.str "pong"),
        ("timestamp", (jGet "timestamp" msg).getD Json.null)]], [])
  else if mt = some "get_status" then
    ([Json.obj [("type", Json.str "status"), ("user_id", Json.str userId),
        ("connected_projects", Json.arr (userProjects.map Json.str)),
        ("connection_status", Json.str "active")]],
     [MgrCall.getUserProjects userId])
  else
    ([Json.obj [("type", Json.str "error"),
        ("message", Json.str ("Tipo de mensagem desconhecido: " ++
          pyStrOfOpt (jGet "type" msg)))]],
     [])

/-- One registry operation, for reasoning about arbitrary operation
sequences.  Send/broadcast operations carry their own write oracle. -/
inductive Op where
  | connect : Option String → Nat → Op
  | disconnect : Nat → Option String → Op
  | join : String → String → Op
  | leave : String → String → Op
  | sendPersonal : String → String → (Nat → Bool) → Op
  | broadcastRoom : String → String → Option String → (Nat → Bool) → Op
  | broadcastEveryone : String → (Nat → Bool) → Op

/-- The state effect of one registry operation. -/
def stepOp (s : Manager) (op : Op) : Manager :=
  match op with
  | Op.connect uid ws => connectM uid ws s
  | Op.disconnect ws uid => disconnectM ws uid s
  | Op.join u r => joinRoom u r s
  | Op.leave u r => leaveRoom u r s
  | Op.sendPersonal m u ok => (sendPersonalMessage m u ok s).1
  | Op.broadcastRoom m r ex ok => (broadcastToRoom m r ex ok s).1
  | Op.broadcastEveryone m ok => (broadcastAll m ok s).1

/-- Run a sequence of registry operations. -/
def runOps (ops : List Op) (s : Manager) : Manager := ops.foldl stepOp s

/-- Keys of an association list are pairwise distinct (intrinsic to a
Python dict). -/
def keysNodup {β : Type} (l : List (String × β)) : Prop := (l.map Prod.fst).Nodup

/-- Representational invariant intrinsic to the Python data structures:
dict keys are unique and stored sets have no duplicate elements. -/
def InvM (s : Manager) : Prop :=
  keysNodup s.active ∧ keysNodup s.userRooms ∧ keysNodup s.roomConns ∧
  (∀ p ∈ s.userRooms, p.2.Nodup) ∧ (∀ p ∈ s.roomConns, p.2.Nodup)

/-- The two membership tables mirror each other: a user is recorded in a
room's member set exactly when the room is recorded in the user's room
set. -/
def Mirror (s : Manager) : Prop :=
  (∀ p ∈ s.roomConns, ∀ u ∈ p.2, p.1 ∈ dictGetD u s.userRooms []) ∧
  (∀ q ∈ s.userRooms, ∀ r ∈ q.2, q.1 ∈ dictGetD r s.roomConns [])

/-- Every room entry present in the registry has a non-empty member set. -/
def RoomsNonempty (s : Manager) : Prop :=
  ∀ r l, dictGet r s.roomConns = some l → l ≠ []

instance (s : Manager) : Decidable (InvM s) := by
  unfold InvM keysNodup; infer_instance

instance (s : Manager) : Decidable (Mirror s) := by
  unfold Mirror; infer_instance

/- ------------------------------------------------------------------ -/
/- Association-list lemmas                                             -/
/- ------------------------------------------------------------------ -/

theorem dictGet_dictInsert_self {β : Type} (k : String) (v : β) (l : List (String × β)) :
    dictGet k (dictInsert k v l) = some v := by
  induction l with
  | nil => simp [dictInsert, dictGet]
  | cons p rest ih =>
    obtain ⟨k', v'⟩ := p
    by_cases h : k' = k
    · simp [dictInsert, h, dictGet]
    · simp [dictInsert, h, dictGet, ih]

theorem dictGet_dictInsert_ne {β : Type} {q k : String} (h : q ≠ k) (v : β)
    (l : List (String × β)) : dictGet q (dictInsert k v l) = dictGet q l := by
  induction l with
  | nil => simp [dictInsert, dictGet, Ne.symm h]
  | cons p rest ih =>
    obtain ⟨k', v'⟩ := p
    by_cases h' : k' = k
    · subst h'; simp [dictInsert, dictGet, Ne.symm h]
    · simp only [dictInsert, if_neg h', dictGet]
      by_cases h'' : k' = q <;> simp [h'', ih]

theorem dictGet_dictRemove_ne {β : Type} {q k : String} (h : q ≠ k)
    (l : List (String × β)) : dictGet q (dictRemove k l) = dictGet q l := by
  induction l with
  | nil => simp [dictRemove]
  | cons p rest ih =>
    obtain ⟨k', v'⟩ := p
    by_cases h' : k' = k
    · subst h'; simp [dictRemove, dictGet, Ne.symm h]
    · simp only [dictRemove, if_neg h', dictGet]
      by_cases h'' : k' = q <;> simp [h'', ih]

theorem dictGet_mem {β : Type} {k : String} {v : β} {l : List (String × β)}
    (h : dictGet k l = some v) : (k, v) ∈ l := by
  induction l with
  | nil => simp [dictGet] at h
  | cons p rest ih =>
    obtain ⟨k', v'⟩ := p
    by_cases h' : k' = k
    · subst h'; simp [dictGet] at h; simp [h]
    · simp only [dictGet, if_neg h'] at h
      exact List.mem_cons_of_mem _ (ih h)

theorem mem_keys_of_dictGet {β : Type} {k : String} {v : β} {l : List (String × β)}
    (h : dictGet k l = some v) : k ∈ l.map Prod.fst :=
  List.mem_map_of_mem Prod.fst (dictGet_mem h)

theorem dictGet_eq_none_of_not_mem_keys {β : Type} {k : String} {l : List (String × β)}
    (h : k ∉ l.map Prod.fst) : dictGet k l = none := by
  cases hv : dictGet k l with
  | none => rfl
  | some v => exact absurd (mem_keys_of_dictGet hv) h

theorem dictGet_dictRemove_self {β : Type} {k : String} {l : List (String × β)}
    (h : keysNodup l) : dictGet k (dictRemove k l) = none := by
  induction l with
  | nil => simp [dictRemove, dictGet]
  | cons p rest ih =>
    obtain ⟨k', v'⟩ := p
    simp only [keysNodup, List.map_cons, List.nodup_cons] at h
    by_cases h' : k' = k
    · subst h'
      simp only [dictRemove, if_pos rfl]
      exact dictGet_eq_none_of_not_mem_keys h.1
    · simp only [dictRemove, if_neg h', dictGet, if_neg h']
      exact ih h.2

theorem length_dictInsert_of_isSome {β : Type} {k : String} {l : List (String × β)}
    (h : (dictGet k l).isSome) (v : β) : (dictInsert k v l).length = l.length := by
  induction l with
  | nil => simp [dictGet] at h
  | cons p rest ih =>
    obtain ⟨k', v'⟩ := p
    by_cases h' : k' = k
    · simp [dictInsert, h']
    · simp only [dictGet, if_neg h'] at h
      simp [dictInsert, if_neg h', ih h]

theorem dictInsert_dictInsert_same {β : Type} (k : String) (v₁ v₂ : β)
    (l : List (String × β)) :
    dictInsert k v₂ (dictInsert k v₁ l) = dictInsert k v₂ l := by
  induction l with
  | nil => simp [dictInsert]
  | cons p rest ih =>
    obtain ⟨k', v'⟩ := p
    by_cases h : k' = k
    · simp [dictInsert, h]
    · simp [dictInsert, h, ih]

theorem mem_keys_dictInsert {β : Type} {a k : String} {v : β} {l : List (String × β)} :
    a ∈ (dictInsert k v l).map Prod.fst ↔ a = k ∨ a ∈ l.map Prod.fst := by
  induction l with
  | nil => simp [dictInsert]
  | cons p rest ih =>
    obtain ⟨k', v'⟩ := p
    by_cases h : k' = k
    · subst h; by_cases h' : a = k' <;> simp [dictInsert, h', ih]
    · simp only [dictInsert, if_neg h, List.map_cons, List.mem_cons, ih]
      tauto

theorem keysNodup_dictInsert {β : Type} {k : String} {v : β} {l : List (String × β)}
    (h : keysNodup l) : keysNodup (dictInsert k v l) := by
  induction l with
  | nil => simp [dictInsert, keysNodup]
  | cons p rest ih =>
    obtain ⟨k', v'⟩ := p
    simp only [keysNodup, List.map_cons, List.nodup_cons] at h
    by_cases h' : k' = k
    · subst h'
      simpa [dictInsert, keysNodup] using h
    · have := ih h.2
      simp only [dictInsert, if_neg h', keysNodup, List.map_cons, List.nodup_cons]
      refine ⟨?_, this⟩
      rw [mem_keys_dictInsert]
      rintro (rfl | hm)
      · exact h' rfl
      · exact h.1 hm

theorem keys_dictRemove_sublist {β : Type} (k : String) (l : List (String × β)) :
    ((dictRemove k l).map Prod.fst).Sublist (l.map Prod.fst) := by
  induction l with
  | nil => simp [dictRemove]
  | cons p rest ih =>
    obtain ⟨k', v'⟩ := p
    by_cases h : k' = k
    · simp only [dictRemove, if_pos h, List.map_cons]
      exact (List.sublist_cons_self _ _)
    · simp only [dictRemove, if_neg h, List.map_cons]
      exact ih.cons₂ _

theorem keysNodup_dictRemove {β : Type} {k : String} {l : List (String × β)}
    (h : keysNodup l) : keysNodup (dictRemove k l) :=
  List.Nodup.sublist (keys_dictRemove_sublist k l) h

theorem removeFirstVal_of_not_mem {ws : Nat} {l : List (String × Nat)}
    (h : ∀ p ∈ l, p.2 ≠ ws) : removeFirstVal ws l = l := by
  induction l with
  | nil => rfl
  | cons p rest ih =>
    obtain ⟨k, v⟩ := p
    have hv : v ≠ ws := h (k, v) (List.mem_cons_self _ _)
    simp only [removeFirstVal, if_neg hv]
    rw [ih (fun q hq => h q (List.mem_cons_of_mem _ hq))]

/- ------------------------------------------------------------------ -/
/- Room purge and disconnect                                           -/
/- ------------------------------------------------------------------ -/

theorem purge_get_ne {q r u : String} (h : q ≠ r) (rc : List (String × List String)) :
    dictGet q (purgeUserFromRoom u rc r) = dictGet q rc := by
  unfold purgeUserFromRoom
  cases hd : dictGet r rc with
  | none => rfl
  | some l =>
    by_cases he : l.erase u = []
    · simp only [if_pos he]
      exact dictGet_dictRemove_ne h rc
    · simp only [if_neg he]
      exact dictGet_dictInsert_ne h _ rc

theorem purge_get_self {r u : String} {rc : List (String × List String)}
    (hk : keysNodup rc) :
    dictGet r (purgeUserFromRoom u rc r) =
      match dictGet r rc with
      | none => none
      | some l => if l.erase u = [] then none else some (l.erase u) := by
  unfold purgeUserFromRoom
  cases hd : dictGet r rc with
  | none => simp [hd]
  | some l =>
    by_cases he : l.erase u = []
    · simp only [if_pos he]
      exact dictGet_dictRemove_self hk
    · simp only [if_neg he]
      exact dictGet_dictInsert_self r _ rc

theorem keysNodup_purge {r u : String} {rc : List (String × List String)}
    (hk : keysNodup rc) : keysNodup (purgeUserFromRoom u rc r) := by
  unfold purgeUserFromRoom
  cases hd : dictGet r rc with
  | none => exact hk
  | some l =>
    by_cases he : l.erase u = []
    · simpa only [if_pos he] using keysNodup_dictRemove hk
    · simpa only [if_neg he] using keysNodup_dictInsert hk

theorem foldl_purge_spec (u : String) :
    ∀ (rooms : List String) (rc : List (String × List String)),
      keysNodup rc → rooms.Nodup →
      keysNodup (rooms.foldl (purgeUserFromRoom u) rc) ∧
      ∀ r, dictGet r (rooms.foldl (purgeUserFromRoom u) rc) =
        if r ∈ rooms then
          (match dictGet r rc with
           | none => none
           | some l => if l.erase u = [] then none else some (l.erase u))
        else dictGet r rc := by
  intro rooms
  induction rooms with
  | nil => intro rc hk _; exact ⟨hk, fun r => by simp⟩
  | cons r0 rest ih =>
    intro rc hk hnd
    simp only [List.nodup_cons] at hnd
    have hk1 : keysNodup (purgeUserFromRoom u rc r0) := keysNodup_purge hk
    obtain ⟨hkf, hget⟩ := ih (purgeUserFromRoom u rc r0) hk1 hnd.2
    refine ⟨by simpa [List.foldl_cons] using hkf, fun r => ?_⟩
    simp only [List.foldl_cons]
    by_cases hr : r ∈ rest
    · have hne : r ≠ r0 := fun he => hnd.1 (he ▸ hr)
      rw [hget r, if_pos hr, purge_get_ne hne, if_pos (List.mem_cons_of_mem _ hr)]
    · by_cases he : r = r0
      · subst he
        rw [hget r, if_neg hr, purge_get_self hk, if_pos (List.mem_cons_self _ _)]
      · rw [hget r, if_neg hr, purge_get_ne he,
          if_neg (by simp [List.mem_cons, he, hr])]

/-- The full effect of `ConnectionManager.disconnect` on a registered,
truthy identity, for states satisfying the representational invariant
and the two-table mirror property: the transport registration and the
reverse-lookup entry disappear; every room the identity had joined
loses the identity, the room entry being deleted when it empties;
every other room entry is untouched; and the identity is in no room's
member set afterwards. -/
theorem disconnect_named_spec {s : Manager} {u : String} {t : Nat}
    (hInv : InvM s) (hMir : Mirror s) (hu : u ≠ "")
    (hact : dictGet u s.active = some t) :
    dictGet u (disconnectM t (some u) s).active = none ∧
    dictGet u (disconnectM t (some u) s).userRooms = none ∧
    (∀ r, r ∈ getUserRooms u s →
      dictGet r (disconnectM t (some u) s).roomConns =
        (match dictGet r s.roomConns with
         | none => none
         | some l => if l.erase u = [] then none else some (l.erase u))) ∧
    (∀ r, r ∉ getUserRooms u s →
      dictGet r (disconnectM t (some u) s).roomConns = dictGet r s.roomConns) ∧
    (∀ r, u ∉ getRoomUsers r (disconnectM t (some u) s)) := by
  obtain ⟨hka, hku, hkr, hndu, hndr⟩ := hInv
  have hcond : u ≠ "" ∧ (dictGet u s.active).isSome := ⟨hu, by simp [hact]⟩
  cases hur : dictGet u s.userRooms with
  | none =>
    have hs' : disconnectM t (some u) s = { s with active := dictRemove u s.active } := by
      simp [disconnectM, if_pos hcond, hur]
    rw [hs']
    have hrooms : getUserRooms u s = [] := by simp [getUserRooms, dictGetD, hur]
    refine ⟨dictGet_dictRemove_self hka, by simpa using hur, ?_, ?_, ?_⟩
    · intro r hr; rw [hrooms] at hr; cases hr
    · intro r _; rfl
    · intro r
      simp only [getRoomUsers, dictGetD]
      cases hrc : dictGet r s.roomConns with
      | none => simp
      | some l =>
        simp only [Option.getD_some]
        intro hul
        have := hMir.1 (r, l) (dictGet_mem hrc) u hul
        rw [show dictGetD u s.userRooms [] = [] by simp [dictGetD, hur]] at this
        cases this
  | some rooms =>
    have hs' : disconnectM t (some u) s =
        { active := dictRemove u s.active,
          userRooms := dictRemove u s.userRooms,
          roomConns := rooms.foldl (purgeUserFromRoom u) s.roomConns } := by
      simp [disconnectM, if_pos hcond, hur]
    have hroomsEq : getUserRooms u s = rooms := by simp [getUserRooms, dictGetD, hur]
    have hndrooms : rooms.Nodup := hndu (u, rooms) (dictGet_mem hur)
    obtain ⟨hkf, hget⟩ := foldl_purge_spec u rooms s.roomConns hkr hndrooms
    rw [hs']
    refine ⟨dictGet_dictRemove_self hka, dictGet_dictRemove_self hku, ?_, ?_, ?_⟩
    · intro r hr; rw [hroomsEq] at hr
      rw [hget r, if_pos hr]
    · intro r hr; rw [hroomsEq] at hr
      rw [hget r, if_neg hr]
    · intro r
      simp only [getRoomUsers, dictGetD]
      by_cases hr : r ∈ rooms
      · rw [hget r, if_pos hr]
        cases hrc : dictGet r s.roomConns with
        | none => simp
        | some l =>
          have hndl : l.Nodup := hndr (r, l) (dictGet_mem hrc)
          by_cases he : l.erase u = [] <;> simp [he, hndl.not_mem_erase]
      · rw [hget r, if_neg hr]
        cases hrc : dictGet r s.roomConns with
        | none => simp
        | some l =>
          simp only [Option.getD_some]
          intro hul
          have := hMir.1 (r, l) (dictGet_mem hrc) u hul
          rw [show dictGetD u s.userRooms [] = rooms by simp [dictGetD, hur]] at this
          exact hr this

/- ------------------------------------------------------------------ -/
/- No ghost rooms: preservation by every operation                     -/
/- ------------------------------------------------------------------ -/

theorem setAdd_ne_nil (x : String) (l : List String) : setAdd x l ≠ [] := by
  unfold setAdd
  by_cases h : x ∈ l
  · simp only [if_pos h]
    intro he; rw [he] at h; cases h
  · simp [if_neg h]

theorem purge_preserves {u r0 : String} {rc : List (String × List String)}
    (hk : keysNodup rc) (hne : ∀ r l, dictGet r rc = some l → l ≠ []) :
    keysNodup (purgeUserFromRoom u rc r0) ∧
    ∀ r l, dictGet r (purgeUserFromRoom u rc r0) = some l → l ≠ [] := by
  refine ⟨keysNodup_purge hk, fun r l hget => ?_⟩
  by_cases hr : r = r0
  · subst hr
    cases hd : dictGet r rc with
    | none => simp only [purge_get_self hk, hd] at hget; cases hget
    | some l0 =>
      simp only [purge_get_self hk, hd] at hget
      by_cases he : l0.erase u = []
      · rw [if_pos he] at hget; cases hget
      · rw [if_neg he] at hget
        cases hget; exact he
  · rw [purge_get_ne hr] at hget
    exact hne r l hget

theorem foldl_purge_preserves (u : String) (rooms : List String) :
    ∀ (rc : List (String × List String)), keysNodup rc →
      (∀ r l, dictGet r rc = some l → l ≠ []) →
      keysNodup (rooms.foldl (purgeUserFromRoom u) rc) ∧
      ∀ r l, dictGet r (rooms.foldl (purgeUserFromRoom u) rc) = some l → l ≠ [] := by
  induction rooms with
  | nil => intro rc hk hne; exact ⟨hk, hne⟩
  | cons r0 rest ih =>
    intro rc hk hne
    obtain ⟨hk1, hne1⟩ := @purge_preserves u r0 rc hk hne
    simpa [List.foldl_cons] using ih _ hk1 hne1

theorem disconnect_preserves {ws : Nat} {uid : Option String} {s : Manager}
    (hk : keysNodup s.roomConns) (hne : RoomsNonempty s) :
    keysNodup (disconnectM ws uid s).roomConns ∧
    RoomsNonempty (disconnectM ws uid s) := by
  unfold RoomsNonempty at *
  cases uid with
  | none => exact ⟨hk, hne⟩
  | some u =>
    by_cases hc : u ≠ "" ∧ (dictGet u s.active).isSome
    · cases hur : dictGet u s.userRooms with
      | none =>
        simp only [disconnectM, if_pos hc, hur]
        exact ⟨hk, hne⟩
      | some rooms =>
        simp only [disconnectM, if_pos hc, hur]
        exact foldl_purge_preserves u rooms s.roomConns hk hne
    · simp only [disconnectM, if_neg hc]
      exact ⟨hk, hne⟩

theorem foldl_reap_preserves (us : List String) :
    ∀ (s : Manager), keysNodup s.roomConns → RoomsNonempty s →
      keysNodup ((us.foldl (fun st u =>
        match dictGet u st.active with
        | some t => disconnectM t (some u) st
        | none => st) s)).roomConns ∧
      RoomsNonempty (us.foldl (fun st u =>
        match dictGet u st.active with
        | some t => disconnectM t (some u) st
        | none => st) s) := by
  induction us with
  | nil => intro s hk hne; exact ⟨hk, hne⟩
  | cons u rest ih =>
    intro s hk hne
    simp only [List.foldl_cons]
    cases hd : dictGet u s.active with
    | none => exact ih s hk hne
    | some t =>
      obtain ⟨hk1, hne1⟩ := @disconnect_preserves t (some u) s hk hne
      exact ih _ hk1 hne1

theorem connect_roomConns (uid : Option String) (ws : Nat) (s : Manager) :
    (connectM uid ws s).roomConns = s.roomConns := by
  cases uid with
  | none => rfl
  | some u => by_cases h : u = "" <;> simp [connectM, h]

theorem join_preserves {u room : String} {s : Manager}
    (hk : keysNodup s.roomConns) (hne : RoomsNonempty s) :
    keysNodup (joinRoom u room s).roomConns ∧ RoomsNonempty (joinRoom u room s) := by
  unfold RoomsNonempty at *
  have hrc : (joinRoom u room s).roomConns =
      dictInsert room (setAdd u (dictGetD room
        (if (dictGet room s.roomConns).isSome then s.roomConns
         else dictInsert room [] s.roomConns) []))
        (if (dictGet room s.roomConns).isSome then s.roomConns
         else dictInsert room [] s.roomConns) := rfl
  rw [hrc]
  constructor
  · by_cases h : (dictGet room s.roomConns).isSome <;>
      simp only [if_pos, if_neg, h, ite_true, ite_false] <;>
      [exact keysNodup_dictInsert hk; exact keysNodup_dictInsert (keysNodup_dictInsert hk)]
  · intro r l hget
    by_cases hr : r = room
    · subst hr
      rw [dictGet_dictInsert_self] at hget
      cases hget
      exact setAdd_ne_nil _ _
    · rw [dictGet_dictInsert_ne hr] at hget
      by_cases h : (dictGet room s.roomConns).isSome
      · rw [if_pos h] at hget
        exact hne r l hget
      · rw [if_neg h, dictGet_dictInsert_ne hr] at hget
        exact hne r l hget

theorem leave_preserves {u room : String} {s : Manager}
    (hk : keysNodup s.roomConns) (hne : RoomsNonempty s) :
    keysNodup (leaveRoom u room s).roomConns ∧ RoomsNonempty (leaveRoom u room s) := by
  unfold RoomsNonempty at *
  have hrc : (leaveRoom u room s).roomConns =
      (match dictGet room s.roomConns with
       | some l => if l.erase u = [] then dictRemove room s.roomConns
                   else dictInsert room (l.erase u) s.roomConns
       | none => s.roomConns) := rfl
  rw [hrc]
  cases hd : dictGet room s.roomConns with
  | none => exact ⟨hk, hne⟩
  | some l0 =>
    by_cases he : l0.erase u = []
    · simp only [if_pos he]
      refine ⟨keysNodup_dictRemove hk, fun r l hget => ?_⟩
      by_cases hr : r = room
      · subst hr; rw [dictGet_dictRemove_self hk] at hget; cases hget
      · rw [dictGet_dictRemove_ne hr] at hget; exact hne r l hget
    · simp only [if_neg he]
      refine ⟨keysNodup_dictInsert hk, fun r l hget => ?_⟩
      by_cases hr : r = room
      · subst hr; rw [dictGet_dictInsert_self] at hget; cases hget; exact he
      · rw [dictGet_dictInsert_ne hr] at hget; exact hne r l hget

theorem stepOp_preserves {s : Manager} (op : Op)
    (hk : keysNodup s.roomConns) (hne : RoomsNonempty s) :
    keysNodup (stepOp s op).roomConns ∧ RoomsNonempty (stepOp s op) := by
  cases op with
  | connect uid ws =>
    have h := connect_roomConns uid ws s
    constructor
    · rw [stepOp, h]; exact hk
    · unfold RoomsNonempty; rw [stepOp, h]; exact hne
  | disconnect ws uid => exact disconnect_preserves hk hne
  | join u r => exact join_preserves hk hne
  | leave u r => exact leave_preserves hk hne
  | sendPersonal m u ok =>
    simp only [stepOp]
    cases hd : dictGet u s.active with
    | none => simp only [sendPersonalMessage, hd]; exact ⟨hk, hne⟩
    | some t =>
      by_cases hok : ok t
      · simp only [sendPersonalMessage, hd, if_pos hok]; exact ⟨hk, hne⟩
      · simp only [sendPersonalMessage, hd, if_neg hok]
        exact disconnect_preserves hk hne
  | broadcastRoom m r ex ok =>
    simp only [stepOp]
    cases hd : dictGet r s.roomConns with
    | none => simp only [broadcastToRoom, hd]; exact ⟨hk, hne⟩
    | some members =>
      simp only [broadcastToRoom, hd]
      exact foldl_reap_preserves _ s hk hne
  | broadcastEveryone m ok =>
    simp only [stepOp, broadcastAll]
    exact foldl_reap_preserves _ s hk hne

theorem runOps_preserves (ops : List Op) :
    ∀ (s : Manager), keysNodup s.roomConns → RoomsNonempty s →
      keysNodup (runOps ops s).roomConns ∧ RoomsNonempty (runOps ops s) := by
  induction ops with
  | nil => intro s hk hne; exact ⟨hk, hne⟩
  | cons op rest ih =>
    intro s hk hne
    obtain ⟨hk1, hne1⟩ := stepOp_preserves op hk hne
    simpa [runOps, List.foldl_cons] using ih _ hk1 hne1

/- ------------------------------------------------------------------ -/
/- Counting helpers for fan-out                                        -/
/- ------------------------------------------------------------------ -/

theorem countP_filterMap_eq {α β : Type} (f : α → Option β) (p : β → Bool) :
    ∀ l : List α, (l.filterMap f).countP p = l.countP (fun x => ((f x).map p).getD false) := by
  intro l
  induction l with
  | nil => rfl
  | cons x rest ih =>
    cases hf : f x with
    | none =>
      rw [List.filterMap_cons_none hf, List.countP_cons, ih]
      simp [hf]
    | some b =>
      rw [List.filterMap_cons_some hf, List.countP_cons, List.countP_cons, ih]
      simp [hf]

theorem countP_eq_one_of_unique {α : Type} (p : α → Bool) (a : α) :
    ∀ l : List α, l.Nodup → a ∈ l → (∀ x ∈ l, p x = true ↔ x = a) →
      l.countP p = 1 := by
  intro l
  induction l with
  | nil => intro _ ha; cases ha
  | cons x rest ih =>
    intro hnd hmem hiff
    simp only [List.nodup_cons] at hnd
    rcases List.mem_cons.mp hmem with hxa | harest
    · subst hxa
      have hcnt : rest.countP p = 0 := by
        rw [List.countP_eq_zero]
        intro y hy
        intro hpy
        have := (hiff y (List.mem_cons_of_mem _ hy)).mp hpy
        subst this
        exact hnd.1 hy
      have hpa : p a = true := (hiff a (List.mem_cons_self _ _)).mpr rfl
      rw [List.countP_cons, hcnt]
      simp [hpa]
    · have hx : p x = false := by
        cases hv : p x
        · rfl
        · have := (hiff x (List.mem_cons_self _ _)).mp hv
          subst this
          exact absurd harest hnd.1
      have hrest := ih hnd.2 harest (fun y hy => hiff y (List.mem_cons_of_mem _ hy))
      rw [List.countP_cons, hrest]
      simp [hx]

theorem filter_eq_single_of_unique {α : Type} (p : α → Bool) (a : α) :
    ∀ l : List α, l.Nodup → a ∈ l → (∀ x ∈ l, p x = true ↔ x = a) →
      l.filter p = [a] := by
  intro l
  induction l with
  | nil => intro _ ha; cases ha
  | cons x rest ih =>
    intro hnd hmem hiff
    simp only [List.nodup_cons] at hnd
    rcases List.mem_cons.mp hmem with hxa | harest
    · subst hxa
      have hrest : rest.filter p = [] := by
        rw [List.filter_eq_nil_iff]
        intro y hy hpy
        have := (hiff y (List.mem_cons_of_mem _ hy)).mp hpy
        subst this
        exact hnd.1 hy
      rw [List.filter_cons_of_pos ((hiff a (List.mem_cons_self _ _)).mpr rfl), hrest]
    · have hx : ¬ p x = true := by
        intro hpx
        have := (hiff x (List.mem_cons_self _ _)).mp hpx
        subst this
        exact hnd.1 harest
      rw [List.filter_cons_of_neg hx]
      exact ih hnd.2 harest (fun y hy => hiff y (List.mem_cons_of_mem _ hy))

/- ------------------------------------------------------------------ -/
/- Claim theorems                                                      -/
/- ------------------------------------------------------------------ -/

/-- C1: the claim says a transport write failure during
`broadcast_to_room` is absorbed and the call completes normally even
when the failing member was the room's only remaining member.  The code
violates this: at the state where room `"p1"` has sole member `"u1"`
whose transport write fails, the cleanup deletes the room entry and the
final `len(self.room_connections[room_id])` in the debug-log call then
raises `KeyError` — the embedding's exception flag is `true` (the
failing connection is nevertheless deregistered first). -/
theorem C1_sole_member_failure_raises :
    broadcastToRoom "m" "p1" none (fun _ => false)
      ⟨[("u1", 1)], [("u1", ["p1"])], [("p1", ["u1"])]⟩ =
    (⟨[], [], []⟩, [], true) := by decide

/-- C2: the claimed invariant — no room member set ever contains an
identity without an active registration — is violated by the code: after
`connect(u1,t1); join_room(u1,p1); connect(u1,t2); disconnect(u1)` the
second `connect` reset `user_rooms[u1]` without purging
`room_connections`, so `disconnect` removes nothing from the room and
`"u1"` remains a member of `"p1"` while holding no registration. -/
theorem C2_reconnect_then_disconnect_leaves_ghost_membership :
    getRoomUsers "p1" (disconnectM 2 (some "u1") (connectM (some "u1") 2
      (joinRoom "u1" "p1" (connectM (some "u1") 1 initManager)))) = ["u1"] ∧
    dictGet "u1" (disconnectM 2 (some "u1") (connectM (some "u1") 2
      (joinRoom "u1" "p1" (connectM (some "u1") 1 initManager)))).active = none ∧
    getUserRooms "u1" (disconnectM 2 (some "u1") (connectM (some "u1") 2
      (joinRoom "u1" "p1" (connectM (some "u1") 1 initManager)))) = [] := by
  refine ⟨by decide, ?_, by decide⟩
  decide

/-- C10: an anonymous `connect` keys the transport as
`"anon_" + str(len(active_connections))`; after
`connect(anon t10); connect(anon t20); disconnect(t10); connect(anon t30)`
the count has dropped back to 1, so the last connect computes the key
`"anon_1"` already held by transport 20 and silently replaces it: the
registry ends with the single entry `("anon_1", 30)` and transport 20 is
no longer reachable under any key. -/
theorem C10_anon_key_collision_replaces_live_transport :
    dictGet "anon_1" (connectM none 30 (disconnectM 10 none
      (connectM none 20 (connectM none 10 initManager)))).active = some 30 ∧
    (connectM none 30 (disconnectM 10 none
      (connectM none 20 (connectM none 10 initManager)))).active =
      [("anon_1", 30)] := by
  refine ⟨?_, by decide⟩
  decide

/-- C8 counterexample: the claim says every registry-built envelope has
exactly the top-level fields `type`, `data` and `timestamp`; the
`user_activity` envelope built by `send_user_activity` has only `type`
and `data` (its timestamp sits inside `data`), refuting the claim at
this concrete input. -/
theorem C8_user_activity_lacks_top_level_timestamp :
    topFields (userActivityMessage "u1" "typing" "2024-01-01T00:00:00") =
      ["type", "data"] ∧
    topFields (userActivityMessage "u1" "typing" "2024-01-01T00:00:00") ≠
      ["type", "data", "timestamp"] := by
  refine ⟨rfl, by decide⟩

/-- C8 amended: the `notification`, `project_update` and
`comment_update` envelopes have exactly the top-level fields `type`
(a string), `data` (the payload object) and `timestamp` (a string);
the `user_activity` envelope has exactly `type` and `data`, with its
timestamp nested inside `data` and no top-level `timestamp` field. -/
theorem C8_amended_envelope_shapes (payload : List (String × Json))
    (ts uid act : String) :
    topFields (notificationMessage payload ts) = ["type", "data", "timestamp"] ∧
    jGet "type" (notificationMessage payload ts) = some (Json.str "notification") ∧
    jGet "data" (notificationMessage payload ts) = some (Json.obj payload) ∧
    jGet "timestamp" (notificationMessage payload ts) = some (Json.str ts) ∧
    topFields (projectUpdateMessage payload ts) = ["type", "data", "timestamp"] ∧
    jGet "type" (projectUpdateMessage payload ts) = some (Json.str "project_update") ∧
    jGet "data" (projectUpdateMessage payload ts) = some (Json.obj payload) ∧
    jGet "timestamp" (projectUpdateMessage payload ts) = some (Json.str ts) ∧
    topFields (commentUpdateMessage payload ts) = ["type", "data", "timestamp"] ∧
    jGet "type" (commentUpdateMessage payload ts) = some (Json.str "comment_update") ∧
    jGet "data" (commentUpdateMessage payload ts) = some (Json.obj payload) ∧
    jGet "timestamp" (commentUpdateMessage payload ts) = some (Json.str ts) ∧
    topFields (userActivityMessage uid act ts) = ["type", "data"] ∧
    jGet "type" (userActivityMessage uid act ts) = some (Json.str "user_activity") ∧
    jGet "data" (userActivityMessage uid act ts) =
      some (Json.obj [("user_id", Json.str uid), ("activity", Json.str act),
        ("timestamp", Json.str ts)]) ∧
    jGet "timestamp" (userActivityMessage uid act ts) = none :=
  ⟨rfl, rfl, rfl, rfl, rfl, rfl, rfl, rfl, rfl, rfl, rfl, rfl, rfl, rfl, rfl, rfl⟩

/-- C4: a second `connect` for an already-registered identity replaces
the registration in place — the connection count is unchanged (and from
the empty registry, connecting the same identity twice yields count 1),
the identity now maps to the new transport, and a subsequent
`send_personal_message` writes only to the new transport (so never to
the old one, the transports being distinct). -/
theorem C4_reconnect_supersedes :
    (∀ (s : Manager) (u : String) (t1 t2 : Nat) (msg : String) (ok : Nat → Bool),
      u ≠ "" → dictGet u s.active = some t1 → t1 ≠ t2 →
      getConnectionCount (connectM (some u) t2 s) = getConnectionCount s ∧
      dictGet u (connectM (some u) t2 s).active = some t2 ∧
      (sendPersonalMessage msg u ok (connectM (some u) t2 s)).2 =
        (if ok t2 then [(t2, msg)] else [])) ∧
    (∀ (u : String) (t1 t2 : Nat), u ≠ "" →
      getConnectionCount (connectM (some u) t2 (connectM (some u) t1 initManager)) = 1) := by
  constructor
  · intro s u t1 t2 msg ok hu hreg hne
    have hc : connectM (some u) t2 s =
        { s with active := dictInsert u t2 s.active,
                 userRooms := dictInsert u [] s.userRooms } := by
      simp [connectM, hu]
    refine ⟨?_, ?_, ?_⟩
    · rw [hc]
      exact length_dictInsert_of_isSome (by simp [hreg]) t2
    · rw [hc]
      exact dictGet_dictInsert_self u t2 s.active
    · rw [hc]
      simp only [sendPersonalMessage, dictGet_dictInsert_self]
      by_cases hok : ok t2 <;> simp [hok]
  · intro u t1 t2 hu
    simp only [connectM, if_neg hu, initManager]
    simp [getConnectionCount, dictInsert]

/-- C4 witness: the concrete reconnect scenario with `u1` registered on
transport 1 and reconnecting on transport 2. -/
theorem C4_witness :
    (("u1" : String) ≠ "" ∧
      dictGet "u1" (⟨[("u1", 1)], [("u1", [])], []⟩ : Manager).active = some 1 ∧
      (1 : Nat) ≠ 2) ∧
    getConnectionCount (connectM (some "u1") 2 ⟨[("u1", 1)], [("u1", [])], []⟩) = 1 ∧
    dictGet "u1" (connectM (some "u1") 2
      ⟨[("u1", 1)], [("u1", [])], []⟩).active = some 2 ∧
    (sendPersonalMessage "m" "u1" (fun _ => true)
      (connectM (some "u1") 2 ⟨[("u1", 1)], [("u1", [])], []⟩)).2 = [(2, "m")] := by
  have h := C4_reconnect_supersedes.1 ⟨[("u1", 1)], [("u1", [])], []⟩ "u1" 1 2 "m"
    (fun _ => true) (by decide) (by decide) (by decide)
  exact ⟨⟨by decide, by decide, by decide⟩, by simpa using h.1, h.2.1, by simpa using h.2.2⟩

/-- C5 amended: `disconnect` only purges the rooms recorded in the
identity's `user_rooms` entry, so the claimed effect — remove the
registration, remove the identity from every room it had joined
(deleting a room entry exactly when the member set empties), leave
every other room untouched, and leave the identity in no member set —
holds for a registered, truthy identity precisely when the two
membership tables still mirror each other, i.e. when no intervening
reconnect has reset the identity's `user_rooms` entry (see the
counterexample below for the unguarded claim). -/
theorem C5_disconnect_removes_user_and_empty_rooms {s : Manager} {u : String} {t : Nat}
    (hInv : InvM s) (hMir : Mirror s) (hu : u ≠ "")
    (hact : dictGet u s.active = some t) :
    dictGet u (disconnectM t (some u) s).active = none ∧
    (∀ r, r ∈ getUserRooms u s →
      dictGet r (disconnectM t (some u) s).roomConns =
        (match dictGet r s.roomConns with
         | none => none
         | some l => if l.erase u = [] then none else some (l.erase u))) ∧
    (∀ r, r ∉ getUserRooms u s →
      dictGet r (disconnectM t (some u) s).roomConns = dictGet r s.roomConns) ∧
    (∀ r, u ∉ getRoomUsers r (disconnectM t (some u) s)) := by
  obtain ⟨h1, h2, h3, h4, h5⟩ := disconnect_named_spec hInv hMir hu hact
  exact ⟨h1, h3, h4, h5⟩

/-- C5 witness: `connect(u1,t1); join_room(u1,p1); disconnect(u1)` on
the concrete resulting state — afterwards `u1` is unregistered and in no
room, and room `p1` is gone. -/
theorem C5_witness :
    (InvM (⟨[("u1", 1)], [("u1", ["p1"])], [("p1", ["u1"])]⟩ : Manager) ∧
     Mirror (⟨[("u1", 1)], [("u1", ["p1"])], [("p1", ["u1"])]⟩ : Manager) ∧
     ("u1" : String) ≠ "" ∧
     dictGet "u1" (⟨[("u1", 1)], [("u1", ["p1"])], [("p1", ["u1"])]⟩ : Manager).active =
       some 1) ∧
    dictGet "u1" (disconnectM 1 (some "u1")
      ⟨[("u1", 1)], [("u1", ["p1"])], [("p1", ["u1"])]⟩).active = none ∧
    (∀ r, "u1" ∉ getRoomUsers r (disconnectM 1 (some "u1")
      ⟨[("u1", 1)], [("u1", ["p1"])], [("p1", ["u1"])]⟩)) := by
  have h := C5_disconnect_removes_user_and_empty_rooms
    (s := ⟨[("u1", 1)], [("u1", ["p1"])], [("p1", ["u1"])]⟩)
    (u := "u1") (t := 1) (by decide) (by decide) (by decide) (by decide)
  exact ⟨⟨by decide, by decide, by decide, by decide⟩, h.1, h.2.2.2⟩

/-- C5 counterexample: the unguarded claim — `disconnect(u)` removes a
connected `u` from every room it had joined — fails on a reachable
state: after `connect(u2,t5); join_room(u2,p2); connect(u2,t6)` the
reconnect reset `user_rooms[u2]` to empty, so disconnecting the (still
connected) `u2` removes its registration but leaves `u2` in room `p2`'s
member set. -/
theorem C5_counterexample_reconnect_defeats_room_cleanup :
    getRoomUsers "p2" (disconnectM 6 (some "u2") (connectM (some "u2") 6
      (joinRoom "u2" "p2" (connectM (some "u2") 5 initManager)))) = ["u2"] ∧
    dictGet "u2" (disconnectM 6 (some "u2") (connectM (some "u2") 6
      (joinRoom "u2" "p2" (connectM (some "u2") 5 initManager)))).active = none ∧
    dictGet "u2" (connectM (some "u2") 6 (joinRoom "u2" "p2"
      (connectM (some "u2") 5 initManager))).active = some 6 := by
  exact ⟨by decide, by decide, by decide⟩

/-- C6: no ghost rooms — after any sequence of registry operations
starting from the freshly initialized registry, every room id present as
an entry has a non-empty member set (room entries are deleted as soon as
their last member is removed, by `leave_room`, `disconnect`, or the
write-failure cleanup inside the broadcasts). -/
theorem C6_no_ghost_rooms (ops : List Op) :
    RoomsNonempty (runOps ops initManager) := by
  refine (runOps_preserves ops initManager ?_ ?_).2
  · simp [initManager, keysNodup]
  · intro r l h
    simp [initManager, dictGet] at h

/-- C6 witness: after the single operation `join_room(u1,p1)` the room
entry `p1` exists with member list `["u1"]`, which the theorem proves
non-empty. -/
theorem C6_witness :
    dictGet "p1" (runOps [Op.join "u1" "p1"] initManager).roomConns = some ["u1"] ∧
    (["u1"] : List String) ≠ [] := by
  refine ⟨by decide, ?_⟩
  exact C6_no_ghost_rooms [Op.join "u1" "p1"] "p1" ["u1"] (by decide)

theorem managerExt {a b : Manager} (h1 : a.active = b.active)
    (h2 : a.userRooms = b.userRooms) (h3 : a.roomConns = b.roomConns) : a = b := by
  cases a; cases b
  simp only at h1 h2 h3
  simp [h1, h2, h3]

theorem leave_idempotent {s : Manager} {u room : String} (hInv : InvM s) :
    leaveRoom u room (leaveRoom u room s) = leaveRoom u room s := by
  obtain ⟨-, -, hkr, hndu, hndr⟩ := hInv
  have hact : ∀ (v : String) (w : String) (st : Manager),
      (leaveRoom v w st).active = st.active := fun _ _ _ => rfl
  have hur : ∀ (v w : String) (st : Manager), (leaveRoom v w st).userRooms =
      (match dictGet v st.userRooms with
       | some l => dictInsert v (l.erase w) st.userRooms
       | none => st.userRooms) := fun _ _ _ => rfl
  have hrc : ∀ (v w : String) (st : Manager), (leaveRoom v w st).roomConns =
      (match dictGet w st.roomConns with
       | some l => if l.erase v = [] then dictRemove w st.roomConns
                   else dictInsert w (l.erase v) st.roomConns
       | none => st.roomConns) := fun _ _ _ => rfl
  refine managerExt (by rw [hact, hact]) ?_ ?_
  · rw [hur, hur]
    cases hu : dictGet u s.userRooms with
    | none => simp only [hu]
    | some l =>
      have hnd : l.Nodup := hndu (u, l) (dictGet_mem hu)
      simp only [hu, dictGet_dictInsert_self,
        List.erase_of_not_mem (hnd.not_mem_erase),
        dictInsert_dictInsert_same]
  · rw [hrc, hrc]
    cases hr : dictGet room s.roomConns with
    | none => simp only [hr]
    | some l =>
      have hnd : l.Nodup := hndr (room, l) (dictGet_mem hr)
      by_cases he : l.erase u = []
      · simp only [hr, if_pos he, dictGet_dictRemove_self hkr]
      · simp only [hr, if_neg he, dictGet_dictInsert_self,
          List.erase_of_not_mem (hnd.not_mem_erase), if_neg he,
          dictInsert_dictInsert_same]

/-- C7 counterexample: the claim says `disconnect(i)` for an identity
with no active registration leaves the registry unchanged; but
`disconnect` falls through to the anonymous-removal path, which deletes
the first entry whose transport equals the websocket argument — here the
live anonymous connection `("anon_0", 5)` is removed by a disconnect for
the never-registered identity `"u9"`. -/
theorem C7_counterexample_disconnect_unregistered_mutates :
    disconnectM 5 (some "u9") ⟨[("anon_0", 5)], [], []⟩ ≠
      (⟨[("anon_0", 5)], [], []⟩ : Manager) := by decide

/-- C7 amended: `leave_room(i, r)` twice in a row equals calling it once
(for every state satisfying the representational invariant of the
Python dict/set structures); and `disconnect(i)` for an identity with no
active registration is a no-op provided the websocket handle passed
along with it is not itself registered under any key — in particular a
second consecutive `disconnect(i)` with `i`'s own, already-removed
transport changes nothing. -/
theorem C7_amended_idempotence :
    (∀ (s : Manager) (u r : String), InvM s →
      leaveRoom u r (leaveRoom u r s) = leaveRoom u r s) ∧
    (∀ (s : Manager) (ws : Nat) (u : String), dictGet u s.active = none →
      (∀ p ∈ s.active, p.2 ≠ ws) → disconnectM ws (some u) s = s) := by
  constructor
  · intro s u r hInv
    exact leave_idempotent hInv
  · intro s ws u hreg hws
    have hcond : ¬ (u ≠ "" ∧ (dictGet u s.active).isSome) := by
      rintro ⟨-, hsome⟩
      rw [hreg] at hsome
      cases hsome
    have : disconnectM ws (some u) s =
        { s with active := removeFirstVal ws s.active } := by
      simp [disconnectM, hcond]
    rw [this, removeFirstVal_of_not_mem hws]

/-- C7 witness: the two amended statements at concrete inputs — a
double `leave_room("u1","p1")` on a one-user registry, and a
`disconnect` for the unregistered identity `"u2"` carrying a transport
handle that is registered nowhere. -/
theorem C7_witness :
    (InvM (⟨[("u1", 1)], [("u1", ["p1"])], [("p1", ["u1"])]⟩ : Manager) ∧
     leaveRoom "u1" "p1" (leaveRoom "u1" "p1"
       ⟨[("u1", 1)], [("u1", ["p1"])], [("p1", ["u1"])]⟩) =
       leaveRoom "u1" "p1" ⟨[("u1", 1)], [("u1", ["p1"])], [("p1", ["u1"])]⟩) ∧
    (dictGet "u2" (⟨[("u1", 1)], [("u1", [])], []⟩ : Manager).active = none ∧
     (∀ p ∈ (⟨[("u1", 1)], [("u1", [])], []⟩ : Manager).active, p.2 ≠ 9) ∧
     disconnectM 9 (some "u2") ⟨[("u1", 1)], [("u1", [])], []⟩ =
       (⟨[("u1", 1)], [("u1", [])], []⟩ : Manager)) := by
  refine ⟨⟨by decide, ?_⟩, by decide, by decide, ?_⟩
  · exact C7_amended_idempotence.1 _ "u1" "p1" (by decide)
  · exact C7_amended_idempotence.2 _ 9 "u2" (by decide) (by decide)

/-- C9 counterexample: the claim says an inbound message of unrecognized
type yields exactly one error envelope back to the sender; but the
manager-level handler `handle_websocket_message` sends nothing at all
for `{"type": "bogus"}` from the connected sender `u1` — zero writes
occur and the registry is unchanged (it only logs a warning). -/
theorem C9_counterexample_manager_handler_sends_nothing :
    handleWebsocketMessage (some "u1") (Json.obj [("type", Json.str "bogus")]) "t0"
      (fun _ => true) ⟨[("u1", 1)], [("u1", [])], []⟩ =
    (⟨[("u1", 1)], [("u1", [])], []⟩, []) := rfl

/-- C9 amended: for every inbound message whose parsed type is not one
of the manager handler's recognized types `join_room`, `leave_room`,
`ping`, `handle_websocket_message` sends no message to anyone and leaves
the registry unchanged (no error envelope exists at that layer); the
error-envelope reply lives in the endpoint-level handler
`process_websocket_message`, whose recognized type set is
`join_project`, `leave_project`, `ping`, `get_status`: for every type
outside that set it sends exactly one error envelope to the sender's own
transport and performs no call against the manager. -/
theorem C9_amended_unknown_type_behaviour :
    (∀ (uid : Option String) (msg : Json) (ts : String) (ok : Nat → Bool) (s : Manager),
      mtype msg ≠ some "join_room" → mtype msg ≠ some "leave_room" →
      mtype msg ≠ some "ping" →
      handleWebsocketMessage uid msg ts ok s = (s, [])) ∧
    (∀ (isMember : Bool) (uid : String) (projs : List String) (msg : Json),
      mtype msg ≠ some "join_project" → mtype msg ≠ some "leave_project" →
      mtype msg ≠ some "ping" → mtype msg ≠ some "get_status" →
      processWebsocketMessage isMember uid projs msg =
        ([Json.obj [("type", Json.str "error"),
            ("message", Json.str ("Tipo de mensagem desconhecido: " ++
              pyStrOfOpt (jGet "type" msg)))]], [])) := by
  constructor
  · intro uid msg ts ok s h1 h2 h3
    simp only [handleWebsocketMessage, if_neg h1, if_neg h2, if_neg h3]
  · intro isMember uid projs msg h1 h2 h3 h4
    simp only [processWebsocketMessage, if_neg h1, if_neg h2, if_neg h3, if_neg h4]

/-- C9 witness: the inbound message `{"type": "bogus"}` at concrete
inputs for both handlers. -/
theorem C9_witness :
    (mtype (Json.obj [("type", Json.str "bogus")]) ≠ some "join_room" ∧
     mtype (Json.obj [("type", Json.str "bogus")]) ≠ some "leave_room" ∧
     mtype (Json.obj [("type", Json.str "bogus")]) ≠ some "ping" ∧
     mtype (Json.obj [("type", Json.str "bogus")]) ≠ some "get_status") ∧
    handleWebsocketMessage (some "u1") (Json.obj [("type", Json.str "bogus")]) "t0"
      (fun _ => true) initManager = (initManager, []) ∧
    processWebsocketMessage true "u1" [] (Json.obj [("type", Json.str "bogus")]) =
      ([Json.obj [("type", Json.str "error"),
          ("message", Json.str "Tipo de mensagem desconhecido: bogus")]], []) := by
  have hm : mtype (Json.obj [("type", Json.str "bogus")]) = some "bogus" := rfl
  refine ⟨⟨by simp [hm], by simp [hm], by simp [hm], by simp [hm]⟩, ?_, ?_⟩
  · exact C9_amended_unknown_type_behaviour.1 (some "u1") _ "t0" (fun _ => true)
      initManager (by simp [hm]) (by simp [hm]) (by simp [hm])
  · have h := C9_amended_unknown_type_behaviour.2 true "u1" []
      (Json.obj [("type", Json.str "bogus")])
      (by simp [hm]) (by simp [hm]) (by simp [hm]) (by simp [hm])
    simpa using h

/-- C3 amended: fan-out isolation — in a room whose members are exactly
the connected users `A`, `B`, `C` (distinct identities on distinct
transports), if `B`'s write fails while `A`'s and `C`'s succeed, then
`broadcast_to_room` delivers the message exactly once to `A`'s
transport and exactly once to `C`'s transport (every write carrying the
broadcast message) and deregisters `B`; the further conclusion that `B`
is afterwards a member of no room holds provided the two membership
tables still mirror each other, i.e. no intervening reconnect has reset
`B`'s `user_rooms` entry (see the counterexample below for the
unguarded claim). -/
theorem C3_fanout_isolation {s : Manager} {r A B C : String} {tA tB tC : Nat}
    {mem : List String} {msg : String} {ok : Nat → Bool}
    (hInv : InvM s) (hMir : Mirror s)
    (hmem : dictGet r s.roomConns = some mem)
    (hexact : ∀ x, x ∈ mem ↔ x = A ∨ x = B ∨ x = C)
    (hAB : A ≠ B) (hAC : A ≠ C) (hBC : B ≠ C)
    (hA : dictGet A s.active = some tA)
    (hB : dictGet B s.active = some tB)
    (hC : dictGet C s.active = some tC)
    (htAB : tA ≠ tB) (htAC : tA ≠ tC) (htBC : tB ≠ tC)
    (hokA : ok tA = true) (hokB : ok tB = false) (hokC : ok tC = true)
    (hBne : B ≠ "") :
    ((broadcastToRoom msg r none ok s).2.1.countP (fun w => w.1 == tA) = 1) ∧
    ((broadcastToRoom msg r none ok s).2.1.countP (fun w => w.1 == tC) = 1) ∧
    (∀ w ∈ (broadcastToRoom msg r none ok s).2.1, w.2 = msg) ∧
    dictGet B (broadcastToRoom msg r none ok s).1.active = none ∧
    (∀ r2, B ∉ getRoomUsers r2 (broadcastToRoom msg r none ok s).1) := by
  have hndmem : mem.Nodup := hInv.2.2.2.2 (r, mem) (dictGet_mem hmem)
  have hAmem : A ∈ mem := (hexact A).mpr (Or.inl rfl)
  have hBmem : B ∈ mem := (hexact B).mpr (Or.inr (Or.inl rfl))
  have hfail : mem.filter (fun u =>
      decide ((none : Option String) ≠ some u) &&
        (match dictGet u s.active with
         | some t => !ok t
         | none => false)) = [B] := by
    refine filter_eq_single_of_unique _ B mem hndmem hBmem ?_
    intro x hx
    rcases (hexact x).mp hx with rfl | rfl | rfl
    · simp [hA, hokA, hAB]
    · simp [hB, hokB]
    · simp [hC, hokC, Ne.symm hBC]
  simp only [broadcastToRoom, hmem, hfail]
  have hdisc := disconnect_named_spec hInv hMir hBne hB
  refine ⟨?_, ?_, ?_, ?_, ?_⟩
  · rw [countP_filterMap_eq]
    refine countP_eq_one_of_unique _ A mem hndmem hAmem ?_
    intro x hx
    rcases (hexact x).mp hx with rfl | rfl | rfl
    · simp [hA, hokA]
    · simp [hB, hokB, Ne.symm hAB]
    · simp [hC, hokC, Ne.symm hAC, Ne.symm htAC]
  · rw [countP_filterMap_eq]
    refine countP_eq_one_of_unique _ C mem hndmem ((hexact C).mpr (Or.inr (Or.inr rfl))) ?_
    intro x hx
    rcases (hexact x).mp hx with rfl | rfl | rfl
    · simp [hA, hokA, hAC, htAC]
    · simp [hB, hokB, hBC]
    · simp [hC, hokC]
  · intro w hw
    rw [List.mem_filterMap] at hw
    obtain ⟨x, hx, hfx⟩ := hw
    cases hdx : dictGet x s.active with
    | none => simp [hdx] at hfx
    | some t =>
      by_cases hok : ok t
      · simp [hdx, hok] at hfx
        rw [← hfx]
      · simp [hdx, hok] at hfx
  · simp only [List.foldl_cons, List.foldl_nil, hB]
    exact hdisc.1
  · intro r2
    simp only [List.foldl_cons, List.foldl_nil, hB]
    exact hdisc.2.2.2.2 r2

/-- C3 witness: the concrete room `"r"` with members `A`, `B`, `C` on
transports 1, 2, 3, where only transport 2 fails. -/
theorem C3_witness :
    (InvM (⟨[("A", 1), ("B", 2), ("C", 3)],
        [("A", ["r"]), ("B", ["r"]), ("C", ["r"])],
        [("r", ["A", "B", "C"])]⟩ : Manager) ∧
     Mirror (⟨[("A", 1), ("B", 2), ("C", 3)],
        [("A", ["r"]), ("B", ["r"]), ("C", ["r"])],
        [("r", ["A", "B", "C"])]⟩ : Manager) ∧
     dictGet "r" (⟨[("A", 1), ("B", 2), ("C", 3)],
        [("A", ["r"]), ("B", ["r"]), ("C", ["r"])],
        [("r", ["A", "B", "C"])]⟩ : Manager).roomConns = some ["A", "B", "C"] ∧
     (fun t => t != 2) 1 = true ∧ (fun t => t != 2) 2 = false ∧
     (fun t => t != 2) 3 = true) ∧
    ((broadcastToRoom "m" "r" none (fun t => t != 2)
        ⟨[("A", 1), ("B", 2), ("C", 3)],
         [("A", ["r"]), ("B", ["r"]), ("C", ["r"])],
         [("r", ["A", "B", "C"])]⟩).2.1.countP (fun w => w.1 == 1) = 1) ∧
    ((broadcastToRoom "m" "r" none (fun t => t != 2)
        ⟨[("A", 1), ("B", 2), ("C", 3)],
         [("A", ["r"]), ("B", ["r"]), ("C", ["r"])],
         [("r", ["A", "B", "C"])]⟩).2.1.countP (fun w => w.1 == 3) = 1) ∧
    dictGet "B" (broadcastToRoom "m" "r" none (fun t => t != 2)
        ⟨[("A", 1), ("B", 2), ("C", 3)],
         [("A", ["r"]), ("B", ["r"]), ("C", ["r"])],
         [("r", ["A", "B", "C"])]⟩).1.active = none ∧
    (∀ r2, "B" ∉ getRoomUsers r2 (broadcastToRoom "m" "r" none (fun t => t != 2)
        ⟨[("A", 1), ("B", 2), ("C", 3)],
         [("A", ["r"]), ("B", ["r"]), ("C", ["r"])],
         [("r", ["A", "B", "C"])]⟩).1) := by
  have h := @C3_fanout_isolation
    ⟨[("A", 1), ("B", 2), ("C", 3)],
     [("A", ["r"]), ("B", ["r"]), ("C", ["r"])],
     [("r", ["A", "B", "C"])]⟩
    "r" "A" "B" "C" 1 2 3 ["A", "B", "C"] "m" (fun t => t != 2)
    (by decide) (by decide) (by decide)
    (by intro x; simp)
    (by decide) (by decide) (by decide)
    (by decide) (by decide) (by decide)
    (by decide) (by decide) (by decide)
    (by decide) (by decide) (by decide) (by decide)
  exact ⟨⟨by decide, by decide, by decide, by decide, by decide, by decide⟩,
    h.1, h.2.1, h.2.2.2.1, h.2.2.2.2⟩

/-- C3 counterexample: the unguarded claim — after a broadcast in which
only `B`'s write fails, `B` is no longer a member of any room — fails on
a reachable state: connect `A`,`B`,`C` on transports 1,2,3, join all
three to room `r`, then reconnect `B` on transport 4 (which resets
`user_rooms[B]` without purging `room_connections`).  Room `r` then has
exactly the connected members `A`,`B`,`C`; broadcasting with only
transport 4 failing still delivers exactly once to transports 1 and 3
and deregisters `B`, but `B` remains in `r`'s member set. -/
theorem C3_counterexample_reconnected_member_stays_in_room :
    broadcastToRoom "m" "r" none (fun t => t != 4)
      (connectM (some "B") 4 (joinRoom "C" "r" (joinRoom "B" "r" (joinRoom "A" "r"
        (connectM (some "C") 3 (connectM (some "B") 2
          (connectM (some "A") 1 initManager))))))) =
    (⟨[("A", 1), ("C", 3)], [("A", ["r"]), ("C", ["r"])], [("r", ["A", "B", "C"])]⟩,
     [(1, "m"), (3, "m")], false) ∧
    getRoomUsers "r" (broadcastToRoom "m" "r" none (fun t => t != 4)
      (connectM (some "B") 4 (joinRoom "C" "r" (joinRoom "B" "r" (joinRoom "A" "r"
        (connectM (some "C") 3 (connectM (some "B") 2
          (connectM (some "A") 1 initManager)))))))).1 = ["A", "B", "C"] ∧
    dictGet "B" (broadcastToRoom "m" "r" none (fun t => t != 4)
      (connectM (some "B") 4 (joinRoom "C" "r" (joinRoom "B" "r" (joinRoom "A" "r"
        (connectM (some "C") 3 (connectM (some "B") 2
          (connectM (some "A") 1 initManager)))))))).1.active = none := by
  exact ⟨by decide, by decide, by decide⟩
